import Mathlib

/-!
Shallow embedding of the worker-thread pool in `src/util/ThreadPool.cpp`.

The pool's shared mutable state is the atomic stop flag `shouldStop`, the
FIFO `runqueue` of `std::function<void()>` tasks, and the vector of worker
threads.  We model the state as a record, each worker as a status
(running or exited), and each source operation (`work` loop iteration,
`submitTask`, the destructor / `waitForAll` shutdown write) as a pure
function on that record.  Executed tasks are recorded in an execution log
so that ordering and failure-isolation properties can be stated.
-/

namespace ThreadPool

/-- A task is a `std::function<void()>`: possibly empty (default
constructed / null), otherwise a callable that either returns normally,
throws a `std::exception`, or throws something else. -/
inductive Task
  | null
  | runs (id : Nat)
  | throwsStd (id : Nat) (msg : String)
  | throwsOther (id : Nat)
deriving DecidableEq, Repr

/-- The two catch clauses at lines 65-72 distinguish `std::exception`
from everything else. -/
inductive TaskError
  | std (msg : String)
  | other
deriving DecidableEq, Repr

/-- What calling the callable itself does (`task()` at line 64).  Calling
an empty `std::function` throws `std::bad_function_call`, which is a
`std::exception`. -/
def invoke : Task → Except TaskError Unit
  | .null => .error (.std "bad_function_call")
  | .runs _ => .ok ()
  | .throwsStd _ m => .error (.std m)
  | .throwsOther _ => .error .other

/-- Outcome of one pass over lines 60-73 of the worker body: the
`if (task)` guard either skips an empty callable, or the task runs to
completion, or its exception is caught and reported to `cerr`. -/
inductive ExecResult
  | skipped
  | completed (t : Task)
  | caught (t : Task) (e : TaskError)
deriving DecidableEq, Repr

/-- Lines 60-73: the null guard plus the try/catch.  Every abnormal
termination of the task is mapped to a `caught` report; nothing escapes. -/
def guardedRun (t : Task) : ExecResult :=
  if t = Task.null then ExecResult.skipped
  else
    match invoke t with
    | .ok _ => ExecResult.completed t
    | .error e => ExecResult.caught t e

/-- Result of the critical section of one worker-loop iteration,
lines 41-57. -/
inductive DequeueOutcome
  | blocked
  | sentinel
  | popped (t : Task) (rest : List Task)
deriving DecidableEq, Repr

/-- Lines 41-57 of `ThreadPool::work`: the condition-variable wait with
predicate `shouldStop || !runqueue.empty()` (lines 44-46), the exit test
`shouldStop && runqueue.empty()` (lines 49-51), and the guarded
front/pop pair (lines 53-57).  When the predicate is false the worker
stays blocked in the wait; the final match arm keeps `task` at its
default (null) value exactly as the source would. -/
def waitAndDequeue (shouldStop : Bool) (runqueue : List Task) : DequeueOutcome :=
  if shouldStop || !runqueue.isEmpty then
    if shouldStop && runqueue.isEmpty then DequeueOutcome.sentinel
    else
      match runqueue with
      | [] => DequeueOutcome.popped Task.null []
      | t :: rest => DequeueOutcome.popped t rest
  else DequeueOutcome.blocked

/-- Status of one worker thread: still inside `ThreadPool::work`, or
returned from it (line 50) and hence joinable-but-finished. -/
inductive WStatus
  | running
  | exited
deriving DecidableEq, Repr

/-- The pool's shared state, plus a log of (worker index, execution
result) pairs recording what ran, in order. -/
structure Sys where
  shouldStop : Bool
  runqueue : List Task
  workers : List WStatus
  log : List (Nat × ExecResult)
deriving DecidableEq, Repr

/-- Number of workers still inside their loop. -/
def liveWorkers (s : Sys) : Nat := s.workers.count WStatus.running

/-- One iteration of `ThreadPool::work` (lines 34-75) by worker `i`:
`none` when worker `i` does not exist, has already exited, or is still
blocked in the condition-variable wait; otherwise the successor state.
A sentinel makes the worker return (line 50); a popped task is run
through the guard and try/catch and its result logged. -/
def workerStep (s : Sys) (i : Nat) : Option Sys :=
  match s.workers[i]? with
  | some WStatus.running =>
    match waitAndDequeue s.shouldStop s.runqueue with
    | DequeueOutcome.blocked => none
    | DequeueOutcome.sentinel => some { s with workers := s.workers.set i WStatus.exited }
    | DequeueOutcome.popped t rest =>
        some { s with runqueue := rest, log := s.log ++ [(i, guardedRun t)] }
  | _ => none

/-- `ThreadPool::submitTask` (lines 102-111): emplace at the back of the
queue under the lock, then `notify_one`.  There is no check of
`shouldStop` and no failure path. -/
def submitTask (s : Sys) (t : Task) : Sys :=
  { s with runqueue := s.runqueue ++ [t] }

/-- The write both shutdown entry points perform: `shouldStop = true`
(line 88 and line 114) followed by `notify_all`. -/
def initiateShutdown (s : Sys) : Sys :=
  { s with shouldStop := true }

/-- The constructor (lines 80-85): `shouldStop(false)`, empty queue, and
`concurrency` threads spawned, each running `ThreadPool::work`. -/
def mkPool (concurrency : Nat) : Sys :=
  { shouldStop := false
    runqueue := []
    workers := List.replicate concurrency WStatus.running
    log := [] }

/-- Externally visible synchronization effects, used to compare the
destructor against `waitForAll` and to describe `submitTask`. -/
inductive Effect
  | setStop
  | notifyAll
  | joinWorker (i : Nat)
  | lockAcquire
  | emplaceBack
  | lockRelease
  | notifyOne
deriving DecidableEq, Repr

/-- Effect trace of `~ThreadPool` (lines 87-97): set the stop flag, wake
all sleeping threads, join each worker in order. -/
def destructorEffects (n : Nat) : List Effect :=
  Effect.setStop :: Effect.notifyAll :: (List.range n).map Effect.joinWorker

/-- Effect trace of `ThreadPool::waitForAll` (lines 113-120): set the
stop flag, wake all sleeping threads, join each worker in order. -/
def waitForAllEffects (n : Nat) : List Effect :=
  Effect.setStop :: Effect.notifyAll :: (List.range n).map Effect.joinWorker

/-- Effect trace of `ThreadPool::submitTask` (lines 102-111): the lock
scope around the emplace, then a single `notify_one` after release. -/
def submitTaskEffects : List Effect :=
  [Effect.lockAcquire, Effect.emplaceBack, Effect.lockRelease, Effect.notifyOne]

/-- The events the pool's clients and shutdown paths can interleave with
worker iterations. -/
inductive Action
  | submit (t : Task)
  | worker (i : Nat)
  | shutdown
deriving DecidableEq, Repr

/-- Apply one action; a worker action on a blocked, exited or
nonexistent worker leaves the state unchanged. -/
def applyAction (s : Sys) (a : Action) : Sys :=
  match a with
  | Action.submit t => submitTask s t
  | Action.worker i => (workerStep s i).getD s
  | Action.shutdown => initiateShutdown s

/-- Run a sequence of actions. -/
def run (s : Sys) (as : List Action) : Sys :=
  as.foldl applyAction s

/-- Iterate worker `i` up to `fuel` times, stopping early once the
worker blocks or exits. -/
def runWorker : Sys → Nat → Nat → Sys
  | s, _, 0 => s
  | s, i, fuel + 1 =>
    match workerStep s i with
    | none => s
    | some s' => runWorker s' i fuel

/-! ## Helper lemmas -/

/-- After shutdown has been signalled, a lone worker with fuel for the
whole queue drains every pending task in order, logs each result, and
exits via the sentinel. -/
theorem drain_run (q : List Task) (log0 : List (Nat × ExecResult)) :
    runWorker
        { shouldStop := true, runqueue := q, workers := [WStatus.running], log := log0 }
        0 (q.length + 1) =
      { shouldStop := true, runqueue := [], workers := [WStatus.exited],
        log := log0 ++ q.map (fun t => (0, guardedRun t)) } := by
  induction q generalizing log0 with
  | nil =>
      simp [runWorker, workerStep, waitAndDequeue]
  | cons t rest ih =>
      have h1 : workerStep
          { shouldStop := true, runqueue := t :: rest, workers := [WStatus.running],
            log := log0 } 0 =
          some ({ shouldStop := true, runqueue := rest, workers := [WStatus.running],
                  log := log0 ++ [(0, guardedRun t)] } : Sys) := by
        simp [workerStep, waitAndDequeue]
      show runWorker _ 0 (rest.length + 1 + 1) = _
      rw [runWorker, h1]
      show runWorker
          { shouldStop := true, runqueue := rest, workers := [WStatus.running],
            log := log0 ++ [(0, guardedRun t)] } 0 (rest.length + 1) = _
      rw [ih (log0 ++ [(0, guardedRun t)])]
      simp

/-- The element sitting right after a prefix is found at the prefix's
length. -/
theorem get_at_append {α : Type} (l1 l2 : List α) (x : α) :
    (l1 ++ x :: l2)[l1.length]? = some x := by
  rw [List.getElem?_append_right (le_refl _)]
  simp

/-- A worker that has returned from `work` never takes another step. -/
theorem workerStep_exited (s : Sys) (i : Nat) (h : s.workers[i]? = some WStatus.exited) :
    workerStep s i = none := by
  simp [workerStep, h]

/-- A worker iteration never touches the stop flag, and changes the
worker list only by marking its own slot exited. -/
theorem workerStep_fields (s : Sys) (i : Nat) (s' : Sys) (h : workerStep s i = some s') :
    s'.shouldStop = s.shouldStop ∧
    (s'.workers = s.workers ∨ s'.workers = s.workers.set i WStatus.exited) := by
  unfold workerStep at h
  split at h
  · split at h
    · exact Option.noConfusion h
    · injection h with h; subst h; exact ⟨rfl, Or.inr rfl⟩
    · injection h with h; subst h; exact ⟨rfl, Or.inl rfl⟩
  · exact Option.noConfusion h

/-- No pool event resets the stop flag once it is set. -/
theorem applyAction_stop_mono (s : Sys) (a : Action) (h : s.shouldStop = true) :
    (applyAction s a).shouldStop = true := by
  cases a with
  | submit t => exact h
  | shutdown => rfl
  | worker i =>
    cases hs : workerStep s i with
    | none => simpa [applyAction, hs] using h
    | some s' =>
      have := (workerStep_fields s i s' hs).1
      simp [applyAction, hs, this, h]

/-- No pool event revives a worker that has exited. -/
theorem applyAction_preserves_exited (s : Sys) (a : Action) (i : Nat)
    (h : s.workers[i]? = some WStatus.exited) :
    (applyAction s a).workers[i]? = some WStatus.exited := by
  cases a with
  | submit t => exact h
  | shutdown => exact h
  | worker j =>
    cases hs : workerStep s j with
    | none => simpa [applyAction, hs] using h
    | some s' =>
      rcases (workerStep_fields s j s' hs) with ⟨-, hw | hw⟩
      · simpa [applyAction, hs, hw] using h
      · by_cases hij : j = i
        · subst hij
          exact absurd hs (by simp [workerStep_exited s j h])
        · simp only [applyAction, hs, Option.getD_some]
          rw [hw, List.getElem?_set_ne hij]
          exact h

/-- Along any sequence of pool events, a set stop flag stays set and an
exited worker stays exited. -/
theorem run_preserves (as : List Action) : ∀ (s : Sys) (i : Nat),
    (s.shouldStop = true → (run s as).shouldStop = true) ∧
    (s.workers[i]? = some WStatus.exited → (run s as).workers[i]? = some WStatus.exited) := by
  induction as with
  | nil => intro s i; exact ⟨fun h => h, fun h => h⟩
  | cons a as ih =>
    intro s i
    refine ⟨fun h => ?_, fun h => ?_⟩
    · exact (ih (applyAction s a) i).1 (applyAction_stop_mono s a h)
    · exact (ih (applyAction s a) i).2 (applyAction_preserves_exited s a i h)

/-- A pool event on a pool with no workers leaves the worker list empty
and executes nothing. -/
theorem applyAction_no_workers (s : Sys) (a : Action) (h : s.workers = []) :
    (applyAction s a).workers = [] ∧ (applyAction s a).log = s.log := by
  cases a with
  | submit t => exact ⟨h, rfl⟩
  | shutdown => exact ⟨h, rfl⟩
  | worker i =>
    have hn : workerStep s i = none := by simp [workerStep, h]
    exact ⟨by simp [applyAction, hn, h], by simp [applyAction, hn]⟩

/-- A pool constructed with zero workers never executes any task, over
any sequence of pool events. -/
theorem run_no_workers (as : List Action) : ∀ (s : Sys), s.workers = [] →
    (run s as).workers = [] ∧ (run s as).log = s.log := by
  induction as with
  | nil => intro s h; exact ⟨h, rfl⟩
  | cons a as ih =>
    intro s h
    rcases applyAction_no_workers s a h with ⟨h1, h2⟩
    rcases ih (applyAction s a) h1 with ⟨h3, h4⟩
    exact ⟨h3, h4.trans h2⟩

/-! ## Claim theorems -/

/-- Claim C3: the blocking dequeue of the worker loop stays blocked
exactly when the queue is empty and no shutdown was requested; a
non-empty queue always yields its front task regardless of the stop
flag; an empty queue with shutdown requested yields the sentinel, on
which the worker returns from `work` and is marked exited. -/
theorem C3_wait_and_dequeue (stop : Bool) (q : List Task) :
    (waitAndDequeue stop q = DequeueOutcome.blocked ↔ (stop = false ∧ q = [])) ∧
    (∀ t rest, q = t :: rest → waitAndDequeue stop q = DequeueOutcome.popped t rest) ∧
    (stop = true → q = [] → waitAndDequeue stop q = DequeueOutcome.sentinel) ∧
    (∀ (s : Sys) (i : Nat), s.shouldStop = true → s.runqueue = [] →
      s.workers[i]? = some WStatus.running →
      workerStep s i = some { s with workers := s.workers.set i WStatus.exited }) := by
  refine ⟨?_, ?_, ?_, ?_⟩
  · cases stop <;> cases q <;> simp [waitAndDequeue]
  · intro t rest hq
    subst hq
    cases stop <;> simp [waitAndDequeue]
  · intro hs hq
    subst hs; subst hq
    simp [waitAndDequeue]
  · intro s i hs hq hw
    simp [workerStep, hw, waitAndDequeue, hs, hq]

/-- Witness for C3 at concrete states: a queued task is popped even
while stopping, and an empty stopped queue yields the sentinel. -/
theorem C3_wait_and_dequeue_witness :
    waitAndDequeue true [Task.runs 5] = DequeueOutcome.popped (Task.runs 5) [] ∧
    waitAndDequeue true ([] : List Task) = DequeueOutcome.sentinel :=
  ⟨(C3_wait_and_dequeue true [Task.runs 5]).2.1 (Task.runs 5) [] rfl,
   (C3_wait_and_dequeue true []).2.2.1 rfl rfl⟩

/-- Claim C9: the front/pop pair runs only on a non-empty queue: any
popped outcome certifies the queue held that task at the front, so the
dequeue never underflows, spurious wakeups included. -/
theorem C9_no_empty_pop (stop : Bool) (q : List Task) (t : Task) (rest : List Task)
    (h : waitAndDequeue stop q = DequeueOutcome.popped t rest) :
    q = t :: rest ∧ q ≠ [] := by
  cases stop <;> cases q <;> simp_all [waitAndDequeue]

/-- Witness for C9: popping from a singleton queue certifies its shape. -/
theorem C9_no_empty_pop_witness :
    [Task.runs 3] = [Task.runs 3] ∧ [Task.runs 3] ≠ ([] : List Task) :=
  C9_no_empty_pop false [Task.runs 3] (Task.runs 3) [] rfl

/-- Claim C1: a task that terminates abnormally is caught at the worker
boundary: its failure is logged as a `caught` report rather than
propagating, the worker list (and hence the live-worker count) is
unchanged, the failing worker is still running, and it immediately
dequeues and runs the next queued task. -/
theorem C1_failure_isolation (s : Sys) (i : Nat) (t : Task) (rest : List Task) (e : TaskError)
    (ht : t ≠ Task.null)
    (hq : s.runqueue = t :: rest)
    (hw : s.workers[i]? = some WStatus.running)
    (he : invoke t = Except.error e) :
    workerStep s i =
        some { s with runqueue := rest, log := s.log ++ [(i, ExecResult.caught t e)] } ∧
    liveWorkers { s with runqueue := rest, log := s.log ++ [(i, ExecResult.caught t e)] } =
        liveWorkers s ∧
    ({ s with runqueue := rest, log := s.log ++ [(i, ExecResult.caught t e)] } : Sys).workers[i]?
        = some WStatus.running ∧
    (∀ u rest2, rest = u :: rest2 →
      workerStep { s with runqueue := rest, log := s.log ++ [(i, ExecResult.caught t e)] } i =
        some { s with runqueue := rest2, log := s.log ++ [(i, ExecResult.caught t e), (i, guardedRun u)] }) := by
  have hg : guardedRun t = ExecResult.caught t e := by
    simp [guardedRun, ht, he]
  refine ⟨?_, rfl, hw, ?_⟩
  · simp [workerStep, hw, hq, waitAndDequeue, hg]
  · intro u rest2 hrest
    subst hrest
    simp [workerStep, hw, waitAndDequeue]

/-- Witness for C1: a worker that catches a throwing task stays alive
and the report lands in the log. -/
theorem C1_failure_isolation_witness :
    workerStep
        { shouldStop := false, runqueue := [Task.throwsStd 1 "boom", Task.runs 2],
          workers := [WStatus.running], log := [] } 0 =
      some { shouldStop := false, runqueue := [Task.runs 2],
             workers := [WStatus.running],
             log := [(0, ExecResult.caught (Task.throwsStd 1 "boom") (TaskError.std "boom"))] } :=
  (C1_failure_isolation
    { shouldStop := false, runqueue := [Task.throwsStd 1 "boom", Task.runs 2],
      workers := [WStatus.running], log := [] }
    0 (Task.throwsStd 1 "boom") [Task.runs 2] (TaskError.std "boom")
    (by simp) rfl rfl rfl).1

/-- Claim C10: a null (default-constructed) callable is safe: invoking
it directly would throw, but the `if (task)` guard skips execution, the
dequeue logs a skip, and the worker keeps running. -/
theorem C10_null_task_guard (s : Sys) (i : Nat) (rest : List Task)
    (hq : s.runqueue = Task.null :: rest)
    (hw : s.workers[i]? = some WStatus.running) :
    invoke Task.null = Except.error (TaskError.std "bad_function_call") ∧
    guardedRun Task.null = ExecResult.skipped ∧
    workerStep s i =
      some { s with runqueue := rest, log := s.log ++ [(i, ExecResult.skipped)] } ∧
    ({ s with runqueue := rest, log := s.log ++ [(i, ExecResult.skipped)] } : Sys).workers[i]?
        = some WStatus.running := by
  refine ⟨rfl, rfl, ?_, hw⟩
  simp [workerStep, hw, hq, waitAndDequeue, guardedRun]

/-- Witness for C10: a pool holding only a null task skips it and the
worker survives. -/
theorem C10_null_task_guard_witness :
    workerStep
        { shouldStop := false, runqueue := [Task.null],
          workers := [WStatus.running], log := [] } 0 =
      some { shouldStop := false, runqueue := [],
             workers := [WStatus.running], log := [(0, ExecResult.skipped)] } :=
  (C10_null_task_guard
    { shouldStop := false, runqueue := [Task.null], workers := [WStatus.running], log := [] }
    0 [] rfl rfl).2.2.1

/-- A pool whose shutdown flag is already set, with one worker still
draining. -/
def postStopPool : Sys :=
  { shouldStop := true, runqueue := [], workers := [WStatus.running], log := [] }

/-- Counterexample to claim C2: `submitTask` has no stop check, so a
task submitted after shutdown was initiated is enqueued (not rejected)
and a still-draining worker executes it. -/
theorem C2_counterexample :
    (submitTask postStopPool (Task.runs 42)).runqueue = [Task.runs 42] ∧
    runWorker (submitTask postStopPool (Task.runs 42)) 0 2 =
      { shouldStop := true, runqueue := [], workers := [WStatus.exited],
        log := [(0, ExecResult.completed (Task.runs 42))] } :=
  ⟨rfl, rfl⟩

/-- Claim C2 as amended: `submitTask` performs no check of the stop
flag; a task submitted after shutdown has begun is unconditionally
appended to the queue with no rejection path, leaving all other pool
state untouched. -/
theorem C2_submit_after_stop (s : Sys) (t : Task) (hstop : s.shouldStop = true) :
    submitTask s t = { s with runqueue := s.runqueue ++ [t] } ∧
    (submitTask s t).shouldStop = true := by
  exact ⟨rfl, hstop⟩

/-- Witness for the amended C2 on a stopped pool. -/
theorem C2_submit_after_stop_witness :
    submitTask postStopPool (Task.runs 7) =
      { postStopPool with runqueue := postStopPool.runqueue ++ [Task.runs 7] } ∧
    (submitTask postStopPool (Task.runs 7)).shouldStop = true :=
  C2_submit_after_stop postStopPool (Task.runs 7) rfl

/-- Claim C4: the destructor (lines 87-97) and `waitForAll` (lines
113-120) perform the same effect sequence — set the stop flag, wake all
workers, join the same handles in the same order — and because the
dequeue drains before honouring shutdown, every task enqueued at
shutdown time is still executed and logged; none is discarded. -/
theorem C4_shutdown_modes (n : Nat) (q : List Task) :
    destructorEffects n = waitForAllEffects n ∧
    (initiateShutdown
        { shouldStop := false, runqueue := q, workers := [WStatus.running], log := [] }).shouldStop
      = true ∧
    runWorker
        (initiateShutdown
          { shouldStop := false, runqueue := q, workers := [WStatus.running], log := [] })
        0 (q.length + 1) =
      { shouldStop := true, runqueue := [], workers := [WStatus.exited],
        log := q.map (fun t => (0, guardedRun t)) } := by
  refine ⟨rfl, rfl, ?_⟩
  simpa [initiateShutdown] using drain_run q []

/-- Claim C7: the constructor spawns exactly `n` workers, all running
the dequeue loop, with a fresh flag and empty queue; a zero-worker pool
still accepts submissions but never executes anything: its log stays
empty over every event sequence. -/
theorem C7_construction (n : Nat) (t : Task) (as : List Action) :
    (mkPool n).workers = List.replicate n WStatus.running ∧
    (mkPool n).workers.length = n ∧
    (mkPool n).shouldStop = false ∧
    (mkPool n).runqueue = [] ∧
    (submitTask (mkPool 0) t).runqueue = [t] ∧
    (run (submitTask (mkPool 0) t) as).log = [] := by
  refine ⟨rfl, by simp [mkPool], rfl, rfl, rfl, ?_⟩
  simpa using (run_no_workers as (submitTask (mkPool 0) t) rfl).2

/-- Claim C8: `submitTask` appends the task at the back of the queue,
never fails and changes nothing else; its effect trace holds exactly one
wake signal, a `notify_one` issued after the lock is released. -/
theorem C8_enqueue (s : Sys) (t : Task) :
    (submitTask s t).runqueue = s.runqueue ++ [t] ∧
    (submitTask s t).shouldStop = s.shouldStop ∧
    (submitTask s t).workers = s.workers ∧
    (submitTask s t).log = s.log ∧
    submitTaskEffects =
      [Effect.lockAcquire, Effect.emplaceBack, Effect.lockRelease, Effect.notifyOne] ∧
    submitTaskEffects.count Effect.notifyOne = 1 ∧
    submitTaskEffects.count Effect.notifyAll = 0 :=
  ⟨rfl, rfl, rfl, rfl, rfl, by decide, by decide⟩

/-- Claim C5: the stop flag starts false at construction, no pool event
ever resets it (the only transition is to true and it is preserved over
any event sequence), and a worker that exited on observing the flag with
an empty queue stays exited forever and never re-enters the wait. -/
theorem C5_stop_flag_monotone (n : Nat) (s : Sys) (a : Action) (as : List Action) (i : Nat) :
    (mkPool n).shouldStop = false ∧
    ((applyAction s a).shouldStop = s.shouldStop ∨ (applyAction s a).shouldStop = true) ∧
    (s.shouldStop = true → (run s as).shouldStop = true) ∧
    (s.workers[i]? = some WStatus.exited → workerStep s i = none) ∧
    (s.workers[i]? = some WStatus.exited →
      (run s as).workers[i]? = some WStatus.exited) := by
  refine ⟨rfl, ?_, (run_preserves as s i).1, workerStep_exited s i, (run_preserves as s i).2⟩
  cases a with
  | submit t => exact Or.inl rfl
  | shutdown => exact Or.inr rfl
  | worker j =>
    cases hs : workerStep s j with
    | none => exact Or.inl (by simp [applyAction, hs])
    | some s' =>
      exact Or.inl (by simp [applyAction, hs, (workerStep_fields s j s' hs).1])

/-- Witness for C5 on a stopped pool whose only worker has exited. -/
theorem C5_stop_flag_monotone_witness :
    (run { shouldStop := true, runqueue := [], workers := [WStatus.exited], log := [] }
        [Action.shutdown]).shouldStop = true ∧
    workerStep { shouldStop := true, runqueue := [], workers := [WStatus.exited], log := [] } 0
        = none ∧
    (run { shouldStop := true, runqueue := [], workers := [WStatus.exited], log := [] }
        [Action.shutdown]).workers[0]? = some WStatus.exited :=
  ⟨(C5_stop_flag_monotone 1
      { shouldStop := true, runqueue := [], workers := [WStatus.exited], log := [] }
      Action.shutdown [Action.shutdown] 0).2.2.1 rfl,
   (C5_stop_flag_monotone 1
      { shouldStop := true, runqueue := [], workers := [WStatus.exited], log := [] }
      Action.shutdown [Action.shutdown] 0).2.2.2.1 rfl,
   (C5_stop_flag_monotone 1
      { shouldStop := true, runqueue := [], workers := [WStatus.exited], log := [] }
      Action.shutdown [Action.shutdown] 0).2.2.2.2 rfl⟩

/-- Claim C6: with exactly one worker, the drained execution log equals
the submission sequence mapped through the guard, so dequeue order is
submission order; a task enqueued strictly before another occupies a
strictly earlier log position, completing before the later one starts. -/
theorem C6_fifo_single_worker (A B : Task) (q1 q2 q3 : List Task) :
    (runWorker
        { shouldStop := true, runqueue := q1 ++ A :: q2 ++ B :: q3,
          workers := [WStatus.running], log := [] }
        0 ((q1 ++ A :: q2 ++ B :: q3).length + 1)).log
      = (q1 ++ A :: q2 ++ B :: q3).map (fun t => (0, guardedRun t)) ∧
    ((q1 ++ A :: q2 ++ B :: q3).map (fun t => (0, guardedRun t)))[q1.length]?
      = some (0, guardedRun A) ∧
    ((q1 ++ A :: q2 ++ B :: q3).map (fun t => (0, guardedRun t)))[(q1 ++ A :: q2).length]?
      = some (0, guardedRun B) ∧
    q1.length < (q1 ++ A :: q2).length := by
  refine ⟨?_, ?_, ?_, ?_⟩
  · rw [drain_run (q1 ++ A :: q2 ++ B :: q3) []]
    simp
  · rw [List.map_append, List.map_cons]
    simpa using get_at_append (q1.map (fun t => (0, guardedRun t)))
      ((q2 ++ B :: q3).map (fun t => (0, guardedRun t))) (0, guardedRun A)
  · have e : q1 ++ A :: q2 ++ B :: q3 = (q1 ++ A :: q2) ++ B :: q3 := by simp
    rw [e, List.map_append, List.map_cons]
    simpa using get_at_append ((q1 ++ A :: q2).map (fun t => (0, guardedRun t)))
      (q3.map (fun t => (0, guardedRun t))) (0, guardedRun B)
  · simp

end ThreadPool
